import Mathlib

/-!
Shallow embedding of the scraper subsystem of the `automarketplaceagre`
repository (backend/scrapers): label normalization, the taxonomy catalog
and mapping resolver, the listing store with run-scoped staleness, the
batched concurrent crawler, and the browser-impersonating transport's
retry loop.  Python strings are modelled as lists of code points
(`List Nat`); MongoDB collections as Lean lists; the event loop's
behaviour as pure functions over explicit environments.
-/

set_option autoImplicit false

namespace AutoMarket

/-- Code points of a Lean string literal; the model of a Python `str`. -/
def pyStr (s : String) : List Nat :=
  s.toList.map Char.toNat

/-- Python `\s` / `str.strip` whitespace, restricted to the ASCII range
(space, tab, newline, carriage return, vertical tab, form feed). -/
def isSpace (n : Nat) : Bool :=
  n = 32 || n = 9 || n = 10 || n = 13 || n = 11 || n = 12

/-- Python `str.isdigit` for ASCII digits, as used by the regex `\d`. -/
def isDigit (n : Nat) : Bool :=
  48 ≤ n && n ≤ 57

/-- Python `str.lower` on one code point, covering ASCII letters and the
letter `Õ` (codepoint 213 → 245), the only non-ASCII letter occurring in
the repository's label constants. -/
def lowerChar (n : Nat) : Nat :=
  if 65 ≤ n ∧ n ≤ 90 then n + 32
  else if n = 213 then 245
  else n

/-- Python `str.lower` over a whole string. -/
def lowerStr (s : List Nat) : List Nat :=
  s.map lowerChar

/-- Python `str.lstrip()`. -/
def lstrip (s : List Nat) : List Nat :=
  s.dropWhile isSpace

/-- Python `str.rstrip()`. -/
def rstrip (s : List Nat) : List Nat :=
  (lstrip s.reverse).reverse

/-- Python `str.strip()`. -/
def strip (s : List Nat) : List Nat :=
  rstrip (lstrip s)

/-- The code points of the auto24 UI suffix `"(kõik)"`. -/
def koik : List Nat :=
  pyStr "(kõik)"

/-- `s.lower().endswith("(kõik)")` from `clean_label`. -/
def endsWithKoik (s : List Nat) : Bool :=
  (lowerStr s).reverse.take 6 == koik.reverse

/-- The suffix-dropping step of `clean_label`:
`s[: -len("(kõik)")].strip()` when the lowered string ends with the
suffix, identity otherwise. -/
def dropKoik (s : List Nat) : List Nat :=
  if endsWithKoik s then strip (s.take (s.length - 6)) else s

/-- One left-to-right pass of `_RE_NUM_DOT.sub(r"\1", s)` for the
pattern digit-then-dot (codepoint 46): each matched dot is deleted and
scanning resumes after the match, exactly like `re.sub`. -/
def dotfold : List Nat → List Nat
  | [] => []
  | [a] => [a]
  | a :: b :: rest =>
    if isDigit a && b = 46 then a :: dotfold rest
    else a :: dotfold (b :: rest)

/-- `_RE_MULTI_SPACE.sub(" ", s)`: every maximal run of whitespace is
replaced by a single space (codepoint 32). -/
def collapse : List Nat → List Nat
  | [] => []
  | [a] => [if isSpace a then 32 else a]
  | a :: b :: rest =>
    if isSpace a && isSpace b then collapse (b :: rest)
    else (if isSpace a then 32 else a) :: collapse (b :: rest)

/-- `clean_label` from `backend/scrapers/repository.py`: strip, drop the
trailing `"(kõik)"` suffix, fold `"N."` to `"N"`, collapse whitespace. -/
def cleanLabel (s : List Nat) : List Nat :=
  collapse (dotfold (dropKoik (strip s)))

/-- `norm_label` from `backend/scrapers/repository.py`:
`clean_label(label).lower()`. -/
def normLabel (s : List Nat) : List Nat :=
  lowerStr (cleanLabel s)

/-- The first code point, if any, is not whitespace. -/
def headOk : List Nat → Bool
  | [] => true
  | c :: _ => !isSpace c

/-- The last code point, if any, is not whitespace. -/
def lastOk : List Nat → Bool
  | [] => true
  | [c] => !isSpace c
  | _ :: b :: rest => lastOk (b :: rest)

/-- Every whitespace code point is a plain space and no two are
adjacent: exactly the strings `collapse` leaves unchanged. -/
def spacesOk : List Nat → Bool
  | [] => true
  | [c] => !isSpace c || c = 32
  | a :: b :: rest => (!isSpace a || (a = 32 && !isSpace b)) && spacesOk (b :: rest)

/-- Whether a digit immediately followed by a dot occurs somewhere:
exactly the strings on which `_RE_NUM_DOT` still matches. -/
def hasDigitDot : List Nat → Bool
  | [] => false
  | [_] => false
  | a :: b :: rest => (isDigit a && b = 46) || hasDigitDot (b :: rest)

/-- Replace the first element satisfying `p` using `f`, leaving the rest
unchanged: the model of a MongoDB update on a unique-key filter. -/
def updateFirst {α : Type} (p : α → Bool) (f : α → α) : List α → List α
  | [] => []
  | x :: xs => if p x then f x :: xs else x :: updateFirst p f xs

/-! ## Taxonomy catalog (`ScraperRepository.upsert_make` / `upsert_series` / `upsert_model`) -/

/-- A document of the `makes` collection (unique index on `norm`). -/
structure MakeRow where
  id : Nat
  norm : List Nat
  name_et : List Nat
  deriving DecidableEq, Repr

/-- A document of the `series` collection (unique on `(make_id, norm)`). -/
structure SeriesRow where
  id : Nat
  make_id : Nat
  norm : List Nat
  name_et : List Nat
  deriving DecidableEq, Repr

/-- A document of the `models` collection (unique on
`(make_id, series_id, norm)`, `series_id` nullable). -/
structure ModelRow where
  id : Nat
  make_id : Nat
  series_id : Option Nat
  norm : List Nat
  name_et : List Nat
  deriving DecidableEq, Repr

/-- The three catalog collections plus a fresh-ObjectId counter. -/
structure Catalog where
  makes : List MakeRow
  series : List SeriesRow
  models : List ModelRow
  nextId : Nat
  deriving DecidableEq, Repr

/-- `ScraperRepository.upsert_make`: `find_one_and_update` on
`{norm: norm}` with upsert, returning the document id. -/
def upsertMake (st : Catalog) (nameEt : List Nat) : Nat × Catalog :=
  let name := cleanLabel nameEt
  let norm := normLabel name
  match st.makes.find? (fun r => r.norm == norm) with
  | some r =>
    (r.id,
     { st with makes := updateFirst (fun x => x.norm == norm)
                 (fun x => { x with name_et := name }) st.makes })
  | none =>
    (st.nextId,
     { st with makes := st.makes ++ [⟨st.nextId, norm, name⟩],
               nextId := st.nextId + 1 })

/-- `ScraperRepository.upsert_series`: upsert on `{make_id, norm}`. -/
def upsertSeries (st : Catalog) (makeId : Nat) (nameEt : List Nat) : Nat × Catalog :=
  let name := cleanLabel nameEt
  let norm := normLabel name
  match st.series.find? (fun r => r.make_id == makeId && r.norm == norm) with
  | some r =>
    (r.id,
     { st with series := updateFirst (fun x => x.make_id == makeId && x.norm == norm)
                 (fun x => { x with name_et := name }) st.series })
  | none =>
    (st.nextId,
     { st with series := st.series ++ [⟨st.nextId, makeId, norm, name⟩],
               nextId := st.nextId + 1 })

/-- `ScraperRepository.upsert_model`: upsert on
`{make_id, series_id, norm}` with nullable `series_id`. -/
def upsertModel (st : Catalog) (makeId : Nat) (nameEt : List Nat)
    (seriesId : Option Nat) : Nat × Catalog :=
  let name := cleanLabel nameEt
  let norm := normLabel name
  match st.models.find? (fun r =>
      r.make_id == makeId && r.series_id == seriesId && r.norm == norm) with
  | some r =>
    (r.id,
     { st with models := updateFirst
                 (fun x => x.make_id == makeId && x.series_id == seriesId && x.norm == norm)
                 (fun x => { x with name_et := name }) st.models })
  | none =>
    (st.nextId,
     { st with models := st.models ++ [⟨st.nextId, makeId, seriesId, norm, name⟩],
               nextId := st.nextId + 1 })

/-! ## Mappings and the resolver (`backend/scrapers/resolver.py`) -/

/-- A document of the `taxonomy_mappings` collection. -/
structure Mapping where
  source_site : String
  entity_type : String
  source_label : List Nat
  source_norm : List Nat
  source_key : Option String
  canonical_id : Nat
  make_canonical_id : Option Nat
  series_canonical_id : Option Nat
  deriving DecidableEq, Repr

/-- `_find_mapping_by_text`: `find_one` on
`(source_site, entity_type, make_canonical_id, series_canonical_id, source_norm)`. -/
def findMappingByText (mappings : List Mapping) (sourceSite : String)
    (entityType : String) (sourceLabel : List Nat)
    (makeCanonicalId : Option Nat) (seriesCanonicalId : Option Nat) : Option Mapping :=
  mappings.find? fun m =>
    m.source_site == sourceSite && m.entity_type == entityType &&
    m.make_canonical_id == makeCanonicalId &&
    m.series_canonical_id == seriesCanonicalId &&
    m.source_norm == normLabel sourceLabel

/-- `_find_mapping_by_key`: `find_one` on
`(source_site, entity_type, make_canonical_id, source_key)`. -/
def findMappingByKey (mappings : List Mapping) (sourceSite : String)
    (entityType : String) (sourceKey : String)
    (makeCanonicalId : Option Nat) : Option Mapping :=
  mappings.find? fun m =>
    m.source_site == sourceSite && m.entity_type == entityType &&
    m.make_canonical_id == makeCanonicalId &&
    m.source_key == some sourceKey

/-- The site-native id hints a listing may carry (`source_taxonomy`). -/
structure SourceTaxonomy where
  make_id : Option String
  series_id : Option String
  model_id : Option String
  deriving DecidableEq, Repr

/-- A document of the `car_listings` collection, restricted to the
fields the resolver touches.  `make_id`/`model_id` are only ever written
with a real id, so `none` means the field is absent; `series_id` can be
written as null, so the outer `Option` is presence and the inner one the
value. -/
structure Listing where
  mongo_id : Nat
  source_site : Option String
  make : Option (List Nat)
  series : Option (List Nat)
  model : Option (List Nat)
  source_taxonomy : Option SourceTaxonomy
  make_id : Option Nat
  series_id : Option (Option Nat)
  model_id : Option Nat
  deriving DecidableEq, Repr

/-- Python truthiness of an optional string: `None` and `""` are falsy. -/
def truthyStr : Option (List Nat) → Bool
  | none => false
  | some s => !s.isEmpty

/-- Python truthiness for the `source_site` field. -/
def truthySite : Option String → Bool
  | none => false
  | some s => !s.isEmpty

/-- The result triple of `resolve_one_listing`. -/
structure ResolvedIds where
  make_id : Option Nat
  series_id : Option Nat
  model_id : Option Nat
  deriving DecidableEq, Repr

/-- `resolve_one_listing` from `backend/scrapers/resolver.py`. -/
def resolveOneListing (mappings : List Mapping) (listing : Listing) : ResolvedIds :=
  if !(truthySite listing.source_site && truthyStr listing.make && truthyStr listing.model) then
    ⟨none, none, none⟩
  else
    let site := listing.source_site.getD ""
    let tax := listing.source_taxonomy
    let srcMakeId := tax.bind (fun t => t.make_id)
    let srcSeriesId := tax.bind (fun t => t.series_id)
    let srcModelId := tax.bind (fun t => t.model_id)
    -- 1) make_id (canonical)
    let makeMap0 : Option Mapping :=
      match srcMakeId with
      | some k => findMappingByKey mappings site "make" k none
      | none => none
    let makeMap :=
      match makeMap0 with
      | some m => some m
      | none => findMappingByText mappings site "make" (listing.make.getD []) none none
    let makeId := makeMap.map (fun m => m.canonical_id)
    -- 2) series_id (canonical)
    let seriesId : Option Nat :=
      if makeId.isSome && (truthyStr listing.series || srcSeriesId.isSome) then
        let seriesMap0 : Option Mapping :=
          match srcSeriesId with
          | some k => findMappingByKey mappings site "series" k makeId
          | none => none
        let seriesMap :=
          match seriesMap0 with
          | some m => some m
          | none =>
            if truthyStr listing.series then
              findMappingByText mappings site "series" (listing.series.getD []) makeId none
            else none
        seriesMap.map (fun m => m.canonical_id)
      else none
    -- 3) model_id (canonical)
    let modelId : Option Nat :=
      if makeId.isSome then
        let modelMap0 : Option Mapping :=
          match srcModelId with
          | some k => findMappingByKey mappings site "model" k makeId
          | none => none
        let modelMap :=
          match modelMap0 with
          | some m => some m
          | none =>
            findMappingByText mappings site "model" (listing.model.getD []) makeId seriesId
        modelMap.map (fun m => m.canonical_id)
      else none
    ⟨makeId, seriesId, modelId⟩

/-- The cursor filter of `resolve_all_unresolved`:
`make_id` absent or `model_id` absent. -/
def queryUnresolved (l : Listing) : Bool :=
  l.make_id.isNone || l.model_id.isNone

/-- The single `$set` of `resolve_all_unresolved`: all three canonical
ids written together (`series_id` possibly null). -/
def setCanonicalIds (l : Listing) (ids : ResolvedIds) : Listing :=
  { l with make_id := ids.make_id, series_id := some ids.series_id,
           model_id := ids.model_id }

/-- The `updated`/`skipped` counters of `resolve_all_unresolved`. -/
structure ResolveStats where
  updated : Nat
  skipped : Nat
  deriving DecidableEq, Repr

/-- One iteration of the `resolve_all_unresolved` cursor loop. -/
def resolveStep (mappings : List Mapping) (acc : List Listing × ResolveStats)
    (l : Listing) : List Listing × ResolveStats :=
  let ids := resolveOneListing mappings l
  if ids.make_id.isSome && ids.model_id.isSome then
    (updateFirst (fun x => x.mongo_id == l.mongo_id)
       (fun x => setCanonicalIds x ids) acc.1,
     { acc.2 with updated := acc.2.updated + 1 })
  else
    (acc.1, { acc.2 with skipped := acc.2.skipped + 1 })

/-- `resolve_all_unresolved` from `backend/scrapers/resolver.py`:
stream the unresolved listings (optionally limited), resolve each, and
write back all three ids only when make and model both resolved. -/
def resolveAllUnresolved (mappings : List Mapping) (listings : List Listing)
    (limit : Nat) : List Listing × ResolveStats :=
  let cursor := listings.filter queryUnresolved
  let cursor := if 0 < limit then cursor.take limit else cursor
  cursor.foldl (resolveStep mappings) (listings, ⟨0, 0⟩)

/-! ## Listing store (`save_listings` / `delete_stale_listings`) and the
orchestrator's per-site flow (`run_single_scraper`) -/

/-- A scraped listing draft as handed to `save_listings`, restricted to
the fields the store inspects. -/
structure Draft where
  source_url : Option String
  source_site : Option String
  deriving DecidableEq, Repr

/-- A stored `car_listings` document, restricted to the fields the
staleness claims depend on. -/
structure DbListing where
  source_url : String
  source_site : String
  last_seen_run_id : Option String
  deriving DecidableEq, Repr

/-- The counters returned by `save_listings`. -/
structure SaveResult where
  saved : Nat
  updated : Nat
  errors : Nat
  processed : Nat
  deriving DecidableEq, Repr

/-- The per-item validation of `save_listings`: missing or empty
`source_url`/`source_site` raises `ValueError`, counted as an error. -/
def validDraft (d : Draft) : Bool :=
  truthySite d.source_url && truthySite d.source_site

/-- One `UpdateOne(..., upsert=True)` of the bulk write: upsert by
`source_url`; the boolean reports an insert (vs a match). -/
def upsertListing (runId : Option String) (db : List DbListing) (d : Draft) :
    List DbListing × Bool :=
  let url := d.source_url.getD ""
  let site := d.source_site.getD ""
  if db.any (fun l => l.source_url == url) then
    (updateFirst (fun l => l.source_url == url)
       (fun l =>
         { l with
           source_site := site,
           last_seen_run_id := (if runId.isSome then runId else l.last_seen_run_id) })
       db,
     false)
  else
    (db ++ [{ source_url := url, source_site := site, last_seen_run_id := runId }], true)

/-- `ScraperRepository.save_listings`: bulk upsert with per-item
validation; invalid items are counted, valid ones upserted by
`source_url`, stamping `last_seen_run_id` when a run id is given. -/
def saveListings (db : List DbListing) (items : List Draft) (runId : Option String) :
    List DbListing × SaveResult :=
  if items.isEmpty then (db, ⟨0, 0, 0, 0⟩)
  else
    let ops := items.filter validDraft
    let errors := (items.filter (fun d => !validDraft d)).length
    let processed := ops.length
    if ops.isEmpty then (db, ⟨0, 0, errors, processed⟩)
    else
      let step := fun (acc : List DbListing × Nat) (d : Draft) =>
        let r := upsertListing runId acc.1 d
        (r.1, acc.2 + if r.2 then 1 else 0)
      let r := ops.foldl step (db, 0)
      (r.1, ⟨r.2, processed - r.2, errors, processed⟩)

/-- The `delete_many` filter of `delete_stale_listings`: same site,
`last_seen_run_id` not equal to the current run (absent counts as not
equal, as with Mongo `$ne`). -/
def isStale (sourceSite : String) (runId : String) (l : DbListing) : Bool :=
  l.source_site == sourceSite && l.last_seen_run_id != some runId

/-- `ScraperRepository.delete_stale_listings`: delete every listing of
the site not seen in the given run; returns the deleted count. -/
def deleteStaleListings (db : List DbListing) (sourceSite : String) (runId : String) :
    List DbListing × Nat :=
  (db.filter (fun l => !isStale sourceSite runId l),
   (db.filter (isStale sourceSite runId)).length)

/-- The per-run counters reported by `run_single_scraper`. -/
structure RunStats where
  saved : Nat
  updated : Nat
  errors : Nat
  deleted : Nat
  deriving DecidableEq, Repr

/-- The persistence phase of `run_single_scraper` in
`backend/scrapers/main.py`: if the crawl returned a non-empty list,
save with the run id and then delete stale listings of the site; on a
zero-result crawl, touch nothing. -/
def runSingleScraper (db : List DbListing) (siteName : String) (runId : String)
    (listings : List Draft) : List DbListing × RunStats :=
  if !listings.isEmpty then
    let r := saveListings db listings (some runId)
    let d := deleteStaleListings r.1 siteName runId
    (d.1, ⟨r.2.saved, r.2.updated, r.2.errors, d.2⟩)
  else
    (db, ⟨0, 0, 0, 0⟩)

/-! ## Concurrent crawler (`AsyncBaseScraper._process_batch` / `scrape_all`) -/

/-- The observable outcome of one `_fetch_and_parse_listing` task as
seen through `asyncio.gather(..., return_exceptions=True)`: it raised,
it returned `None`, or it returned a parsed listing. -/
inductive TaskOutcome (α : Type) where
  | raises
  | failed
  | success (value : α)
  deriving DecidableEq, Repr

/-- The filter of `_process_batch`: keep only successful results. -/
def successValue {α : Type} : TaskOutcome α → Option α
  | .success v => some v
  | _ => none

/-- `AsyncBaseScraper._process_batch`: run the batch, drop exceptions
and `None` results, keep successes in order. -/
def processBatch {α β : Type} (run : β → TaskOutcome α) (urls : List β) : List α :=
  (urls.map run).filterMap successValue

/-- Fuel-driven splitting into consecutive `batchSize` chunks; with
`fuel ≥ l.length` and a positive batch size it consumes the whole list. -/
def chunksAux {α : Type} (batchSize : Nat) : Nat → List α → List (List α)
  | 0, _ => []
  | _, [] => []
  | fuel + 1, a :: t =>
    (a :: t).take batchSize :: chunksAux batchSize fuel ((a :: t).drop batchSize)

/-- The batch split `urls[i : i + batch_size]` of `scrape_all`
(a zero batch size would raise `ValueError` in Python's `range`; the
crawler is always constructed with a positive one). -/
def chunks {α : Type} (batchSize : Nat) (l : List α) : List (List α) :=
  if batchSize = 0 then [] else chunksAux batchSize l.length l

/-- `AsyncBaseScraper.scrape_all`: enumerate urls, process them in
consecutive batches, concatenate the per-batch successes. -/
def scrapeAll {α β : Type} (batchSize : Nat) (run : β → TaskOutcome α)
    (urls : List β) : List α :=
  if urls.isEmpty then []
  else ((chunks batchSize urls).map (processBatch run)).flatten

/-! ## Impersonating transport (`CurlCffiScraper.fetch_page`) -/

/-- What the environment does on one attempt of `fetch_page`: the
server answers with a status and body, the request times out, or some
other exception is raised. -/
inductive FetchEvent where
  | response (code : Nat) (body : String)
  | timeout
  | connError
  deriving DecidableEq, Repr

/-- The retry loop of `CurlCffiScraper.fetch_page`, from loop index
`attempt`.  `raise_for_status()` raises `HTTPError` on any status in
400..599, which the `except HTTPError` arm catches and retries with a
`2 * (attempt + 1)` second sleep; a 200 returns the body; any remaining
non-200 status returns `None`; timeouts and other exceptions retry with
a 2 second sleep.  Returns the result and the list of sleep durations. -/
def fetchPageAux (resp : Nat → FetchEvent) (maxRetries : Nat) :
    Nat → Nat → Option String × List Nat
  | 0, _ => (none, [])
  | fuel + 1, attempt =>
    if attempt < maxRetries then
      match resp attempt with
      | .response code body =>
        if 400 ≤ code ∧ code < 600 then
          if attempt < maxRetries - 1 then
            let r := fetchPageAux resp maxRetries fuel (attempt + 1)
            (r.1, 2 * (attempt + 1) :: r.2)
          else fetchPageAux resp maxRetries fuel (attempt + 1)
        else if code = 200 then (some body, [])
        else if code = 403 then
          if attempt < maxRetries - 1 then
            let r := fetchPageAux resp maxRetries fuel (attempt + 1)
            (r.1, 2 * (attempt + 1) :: r.2)
          else fetchPageAux resp maxRetries fuel (attempt + 1)
        else (none, [])
      | .timeout =>
        if attempt < maxRetries - 1 then
          let r := fetchPageAux resp maxRetries fuel (attempt + 1)
          (r.1, 2 :: r.2)
        else fetchPageAux resp maxRetries fuel (attempt + 1)
      | .connError =>
        if attempt < maxRetries - 1 then
          let r := fetchPageAux resp maxRetries fuel (attempt + 1)
          (r.1, 2 :: r.2)
        else fetchPageAux resp maxRetries fuel (attempt + 1)
    else (none, [])

/-- `CurlCffiScraper.fetch_page`: the loop from attempt 0 with enough
fuel for every iteration, paired with the sleeps it performs. -/
def fetchPage (resp : Nat → FetchEvent) (maxRetries : Nat) : Option String × List Nat :=
  fetchPageAux resp maxRetries maxRetries 0

/-- An attempt outcome that sends `fetch_page` back around the loop:
an HTTP-error status, a timeout, or another exception. -/
def retriable : FetchEvent → Bool
  | .response code _ => 400 ≤ code && code < 600
  | .timeout => true
  | .connError => true

/-- The sleep the code actually performs after failing attempt number
`attempt`: `2 * (attempt + 1)` seconds after an `HTTPError`, 2 seconds
after a timeout or other exception. -/
def retryDelay : FetchEvent → Nat → Nat
  | .response _ _, attempt => 2 * (attempt + 1)
  | .timeout, _ => 2
  | .connError, _ => 2

/-- Whether `resolve_one_listing` resolved both make and model for a
listing, the condition under which `resolve_all_unresolved` writes. -/
def bothResolved (mappings : List Mapping) (l : Listing) : Bool :=
  (resolveOneListing mappings l).make_id.isSome &&
  (resolveOneListing mappings l).model_id.isSome

/-- The cursor of `resolve_all_unresolved`: unresolved listings,
optionally limited. -/
def unresolvedCursor (listings : List Listing) (limit : Nat) : List Listing :=
  let c := listings.filter queryUnresolved
  if 0 < limit then c.take limit else c

/-- The write-atomicity characterization of one listing after a
resolution pass over the original store `L0`: it is either an original
listing untouched, or an original listing whose make resolved and model
resolved and whose three canonical ids were all written together. -/
def GoodWrt (mappings : List Mapping) (L0 : List Listing) (y : Listing) : Prop :=
  ∃ l ∈ L0, y.mongo_id = l.mongo_id ∧
    (y = l ∨
     ((resolveOneListing mappings l).make_id.isSome = true ∧
      (resolveOneListing mappings l).model_id.isSome = true ∧
      y = setCanonicalIds l (resolveOneListing mappings l)))

/-- Number of `makes` documents with the given `norm`. -/
def countMakeNorm (rows : List MakeRow) (nv : List Nat) : Nat :=
  (rows.filter (fun r => r.norm == nv)).length

/-- Number of `series` documents with the given `(make_id, norm)`. -/
def countSeriesNorm (rows : List SeriesRow) (makeId : Nat) (nv : List Nat) : Nat :=
  (rows.filter (fun r => r.make_id == makeId && r.norm == nv)).length

/-- Number of `models` documents with the given
`(make_id, series_id, norm)`. -/
def countModelNorm (rows : List ModelRow) (makeId : Nat) (seriesId : Option Nat)
    (nv : List Nat) : Nat :=
  (rows.filter (fun r => r.make_id == makeId && r.series_id == seriesId && r.norm == nv)).length

/-! ## Concrete scenario data used by the claim instances -/

/-- Mapping for make BMW on site auto24, canonical id 1. -/
def mapMakeBMW : Mapping :=
  ⟨"auto24", "make", pyStr "BMW", normLabel (pyStr "BMW"), none, 1, none, none⟩

/-- Mapping for series 3 Series under make 1, canonical id 2. -/
def mapSeries3 : Mapping :=
  ⟨"auto24", "series", pyStr "3 Series", normLabel (pyStr "3 Series"), none, 2, some 1, none⟩

/-- Series-less mapping for model 320i under make 1, canonical id 10. -/
def mapModel320iNoSeries : Mapping :=
  ⟨"auto24", "model", pyStr "320i", normLabel (pyStr "320i"), none, 10, some 1, none⟩

/-- Series-anchored mapping for model 320i under make 1 and series 2,
canonical id 11. -/
def mapModel320iSeries : Mapping :=
  ⟨"auto24", "model", pyStr "320i", normLabel (pyStr "320i"), none, 11, some 1, some 2⟩

/-- Mapping table for the hierarchical-precedence scenario, the
series-less model mapping listed first. -/
def c6Mappings : List Mapping :=
  [mapMakeBMW, mapSeries3, mapModel320iNoSeries, mapModel320iSeries]

/-- The listing `make=BMW, series=3 Series, model=320i` with no native
ids. -/
def c6Listing : Listing :=
  ⟨1, some "auto24", some (pyStr "BMW"), some (pyStr "3 Series"),
   some (pyStr "320i"), none, none, none, none⟩

/-- Ten stored listings of site `s`, all last seen in run `r0`. -/
def dbTen : List DbListing :=
  [⟨"u1", "s", some "r0"⟩, ⟨"u2", "s", some "r0"⟩, ⟨"u3", "s", some "r0"⟩,
   ⟨"u4", "s", some "r0"⟩, ⟨"u5", "s", some "r0"⟩, ⟨"u6", "s", some "r0"⟩,
   ⟨"u7", "s", some "r0"⟩, ⟨"u8", "s", some "r0"⟩, ⟨"u9", "s", some "r0"⟩,
   ⟨"u10", "s", some "r0"⟩]

/-- A crawl of site `s` that re-saw only the first seven listings. -/
def draftsSeven : List Draft :=
  [⟨some "u1", some "s"⟩, ⟨some "u2", some "s"⟩, ⟨some "u3", some "s"⟩,
   ⟨some "u4", some "s"⟩, ⟨some "u5", some "s"⟩, ⟨some "u6", some "s"⟩,
   ⟨some "u7", some "s"⟩]

/-- A non-empty crawl result whose single draft fails validation. -/
def draftsInvalid : List Draft :=
  [⟨none, none⟩]

/-- The empty catalog. -/
def cat0 : Catalog :=
  ⟨[], [], [], 0⟩

/-- A 5-task batch whose task 3 raises and the rest succeed. -/
def run5 : Nat → TaskOutcome Nat :=
  fun u => if u = 3 then .raises else .success (10 * u)

/-- Mappings for the resolution-atomicity scenario: make BMW and the
series-less model 320i. -/
def c5Mappings : List Mapping :=
  [mapMakeBMW, mapModel320iNoSeries]

/-- A listing the resolver can fully resolve. -/
def c5Resolvable : Listing :=
  ⟨1, some "auto24", some (pyStr "BMW"), none, some (pyStr "320i"), none, none, none, none⟩

/-- A listing whose model matches no mapping. -/
def c5Unresolvable : Listing :=
  ⟨2, some "auto24", some (pyStr "BMW"), none, some (pyStr "unknown"), none, none, none, none⟩

/-- A mapping recorded for the source label `20` (norm `20`) on some
site. -/
def mapModel20 : Mapping :=
  ⟨"x", "model", pyStr "20", normLabel (pyStr "20"), none, 7, some 1, none⟩

/-- A server that answers 403 on every attempt. -/
def always403 : Nat → FetchEvent :=
  fun _ => .response 403 ""

/-- A server that answers 404 on every attempt. -/
def always404 : Nat → FetchEvent :=
  fun _ => .response 404 ""

/-! ## General lemmas about the update and lookup primitives -/

theorem updateFirst_length {α : Type} (p : α → Bool) (f : α → α) (l : List α) :
    (updateFirst p f l).length = l.length := by
  induction l with
  | nil => rfl
  | cons x xs ih =>
    by_cases hx : p x <;> simp [updateFirst, hx, ih]

theorem updateFirst_mem {α : Type} (p : α → Bool) (f : α → α) (l : List α)
    (y : α) (hy : y ∈ updateFirst p f l) :
    y ∈ l ∨ ∃ x ∈ l, p x = true ∧ y = f x := by
  induction l with
  | nil => simp [updateFirst] at hy
  | cons x xs ih =>
    by_cases hx : p x
    · simp only [updateFirst, if_pos hx, List.mem_cons] at hy
      rcases hy with hy | hy
      · exact Or.inr ⟨x, List.mem_cons_self x xs, hx, hy⟩
      · exact Or.inl (List.mem_cons_of_mem x hy)
    · simp only [updateFirst, if_neg hx, List.mem_cons] at hy
      rcases hy with hy | hy
      · exact Or.inl (hy ▸ List.mem_cons_self x xs)
      · rcases ih hy with h | ⟨z, hz, hpz, hyz⟩
        · exact Or.inl (List.mem_cons_of_mem x h)
        · exact Or.inr ⟨z, List.mem_cons_of_mem x hz, hpz, hyz⟩

theorem find?_updateFirst {α : Type} (p : α → Bool) (f : α → α) (l : List α)
    (hf : ∀ x, p (f x) = p x) :
    (updateFirst p f l).find? p = (l.find? p).map f := by
  induction l with
  | nil => rfl
  | cons x xs ih =>
    by_cases hx : p x
    · simp [updateFirst, hx, List.find?_cons, hf x]
    · simp [updateFirst, hx, List.find?_cons, ih]

theorem length_filter_updateFirst {α : Type} (p q : α → Bool) (f : α → α) (l : List α)
    (hf : ∀ x, q (f x) = q x) :
    ((updateFirst p f l).filter q).length = (l.filter q).length := by
  induction l with
  | nil => rfl
  | cons x xs ih =>
    by_cases hx : p x
    · by_cases hq : q x <;> simp [updateFirst, hx, List.filter_cons, hf x, hq]
    · by_cases hq : q x <;> simp [updateFirst, hx, List.filter_cons, hq, ih]

theorem find?_some_filter_pos {α : Type} (p : α → Bool) (l : List α) (r : α)
    (h : l.find? p = some r) : 0 < (l.filter p).length := by
  have hr : r ∈ l := List.mem_of_find?_eq_some h
  have hp : p r = true := List.find?_some h
  have : r ∈ l.filter p := List.mem_filter.2 ⟨hr, hp⟩
  exact List.length_pos.2 (List.ne_nil_of_mem this)

/-! ## Claim theorems -/

/-- C6: with both a series-less and a series-anchored mapping for model
320i present (the series-less one listed first), resolving a listing
with make BMW, series 3 Series, model 320i returns the series-anchored
model's canonical id, because the model text lookup is anchored by the
resolved make id and the resolved series id. -/
theorem c6_hierarchical_precedence :
    resolveOneListing c6Mappings c6Listing =
      ⟨some mapMakeBMW.canonical_id, some mapSeries3.canonical_id,
       some mapModel320iSeries.canonical_id⟩ ∧
    mapModel320iSeries.canonical_id ≠ mapModel320iNoSeries.canonical_id ∧
    mapModel320iNoSeries.series_canonical_id = none ∧
    mapModel320iSeries.series_canonical_id = some mapSeries3.canonical_id := by
  decide

/-- C9: the digit-dot folding of `norm_label` applies anywhere in the
label, not only to a trailing ordinal, so the distinct source labels
`2.0` and `20` share the norm `20`: they are upserted into one catalog
model row with one id, and the label `2.0` finds a mapping stored with
norm `20`. -/
theorem c9_digit_dot_collision :
    normLabel (pyStr "2.0") = pyStr "20" ∧
    normLabel (pyStr "20") = pyStr "20" ∧
    pyStr "2.0" ≠ pyStr "20" ∧
    normLabel (pyStr "1.9 TDI") = pyStr "19 tdi" ∧
    findMappingByText [mapModel20] "x" "model" (pyStr "2.0") (some 1) none =
      some mapModel20 ∧
    (upsertModel (upsertModel cat0 1 (pyStr "2.0") none).2 1 (pyStr "20") none).1 =
      (upsertModel cat0 1 (pyStr "2.0") none).1 ∧
    (upsertModel (upsertModel cat0 1 (pyStr "2.0") none).2 1 (pyStr "20") none).2.models.length
      = 1 := by
  decide

/-- C2, counterexample: with `max_retries = 3` and a server answering
403 on every attempt, `fetch_page` sleeps 2 then 4 seconds before its
retries, not the `2^attempt = 1` then `2` seconds the claim states. -/
theorem c2_backoff_counterexample :
    fetchPage always403 3 = (none, [2, 4]) ∧ [2, 4] ≠ [2 ^ 0, 2 ^ 1] := by
  decide

/-- C3: with `max_retries = 3` and a server answering 404 on every
attempt, `fetch_page` does not return failure immediately: the 404
raises in `raise_for_status()`, is caught as an `HTTPError`, and is
retried with sleeps of 2 and 4 seconds before `None` is returned, so
the non-retry branches for non-403 statuses are dead code. -/
theorem c3_non403_retried :
    fetchPage always404 3 = (none, [2, 4]) ∧
    fetchPage always403 3 = fetchPage always404 3 := by
  decide

/-- C7, counterexample: normalization is not idempotent on every label:
`1..` normalizes to `1.` whose second normalization is `1`, and a label
still ending in `(kõik)` after one pass loses the suffix only on the
next pass. -/
theorem c7_idempotence_counterexample :
    normLabel (normLabel (pyStr "1..")) ≠ normLabel (pyStr "1..") ∧
    normLabel (normLabel (pyStr "x (kõik) (kõik)")) ≠
      normLabel (pyStr "x (kõik) (kõik)") := by
  decide

theorem chunksAux_flatten {α : Type} (batchSize : Nat) (hbs : 0 < batchSize) :
    ∀ (fuel : Nat) (l : List α), l.length ≤ fuel →
      (chunksAux batchSize fuel l).flatten = l := by
  intro fuel
  induction fuel with
  | zero =>
    intro l hl
    have : l = [] := List.eq_nil_of_length_eq_zero (Nat.le_zero.1 hl)
    subst this
    rfl
  | succ fuel ih =>
    intro l hl
    cases l with
    | nil => rfl
    | cons a t =>
      have hd : ((a :: t).drop batchSize).length ≤ fuel := by
        simp only [List.length_drop, List.length_cons] at *
        omega
      simp only [chunksAux, List.flatten_cons, ih _ hd, List.take_append_drop]

theorem chunks_flatten {α : Type} (batchSize : Nat) (hbs : 0 < batchSize)
    (l : List α) : (chunks batchSize l).flatten = l := by
  unfold chunks
  rw [if_neg (Nat.pos_iff_ne_zero.mp hbs)]
  exact chunksAux_flatten batchSize hbs l.length l (Nat.le_refl _)

theorem flatten_map_processBatch {α β : Type} (run : β → TaskOutcome α)
    (ls : List (List β)) :
    (ls.map (processBatch run)).flatten = processBatch run ls.flatten := by
  induction ls with
  | nil => rfl
  | cons a t ih =>
    simp only [List.map_cons, List.flatten_cons, ih, processBatch,
      List.map_append, List.filterMap_append]

/-- C4: the crawl result of `scrape_all` is exactly the list of
successfully parsed outcomes, in order, for any batch size: tasks that
raise (absorbed by `gather(..., return_exceptions=True)`) or return
`None` are dropped and never abort the run; in the concrete 5-task
batch whose task 3 raises, tasks 1, 2, 4, 5 survive. -/
theorem c4_batch_fault_isolation :
    (∀ (α β : Type) (batchSize : Nat), 0 < batchSize →
      ∀ (run : β → TaskOutcome α) (urls : List β),
        scrapeAll batchSize run urls = urls.filterMap (fun u => successValue (run u)))
    ∧ scrapeAll 5 run5 [1, 2, 3, 4, 5] = [10, 20, 40, 50]
    ∧ scrapeAll 2 run5 [1, 2, 3, 4, 5] = [10, 20, 40, 50] := by
  refine ⟨?_, by decide, by decide⟩
  intro α β batchSize hbs run urls
  unfold scrapeAll
  by_cases hu : urls.isEmpty
  · rw [if_pos hu]
    rw [List.isEmpty_iff] at hu
    subst hu
    rfl
  · rw [if_neg hu, flatten_map_processBatch, chunks_flatten batchSize hbs,
      processBatch, List.filterMap_map]
    rfl

/-- Witness for C4 at the concrete 5-task batch. -/
theorem c4_batch_fault_isolation_witness :
    (0 < 2 ∧
      scrapeAll 2 run5 [1, 2, 3, 4, 5] =
        [1, 2, 3, 4, 5].filterMap (fun u => successValue (run5 u))) ∧
    [1, 2, 3, 4, 5].filterMap (fun u => successValue (run5 u)) = [10, 20, 40, 50] :=
  ⟨⟨by decide, c4_batch_fault_isolation.1 Nat Nat 2 (by decide) run5 [1, 2, 3, 4, 5]⟩,
   by decide⟩

/-- C1: a zero-result crawl leaves the store untouched and deletes
nothing; after a non-empty crawl is saved under the run id, the stale
deletion keeps exactly the listings that are not of that site or carry
that run id, and deletes as many listings as match the staleness
filter; concretely, with 10 stored listings of which 7 are re-seen,
exactly 3 are deleted and the re-stamped 7 remain. -/
theorem c1_safe_staleness :
    (∀ (db : List DbListing) (site runId : String),
        runSingleScraper db site runId [] = (db, ⟨0, 0, 0, 0⟩))
    ∧ (∀ (db : List DbListing) (site runId : String) (drafts : List Draft),
        drafts ≠ [] →
        (∀ l : DbListing,
          l ∈ (runSingleScraper db site runId drafts).1 ↔
            (l ∈ (saveListings db drafts (some runId)).1 ∧
             ¬(l.source_site = site ∧ l.last_seen_run_id ≠ some runId))) ∧
        (runSingleScraper db site runId drafts).2.deleted =
          ((saveListings db drafts (some runId)).1.filter (isStale site runId)).length)
    ∧ (runSingleScraper dbTen "s" "r1" draftsSeven).2.deleted = 3
    ∧ (runSingleScraper dbTen "s" "r1" draftsSeven).1 =
        [⟨"u1", "s", some "r1"⟩, ⟨"u2", "s", some "r1"⟩, ⟨"u3", "s", some "r1"⟩,
         ⟨"u4", "s", some "r1"⟩, ⟨"u5", "s", some "r1"⟩, ⟨"u6", "s", some "r1"⟩,
         ⟨"u7", "s", some "r1"⟩] := by
  refine ⟨?_, ?_, by decide, by decide⟩
  · intro db site runId
    rfl
  · intro db site runId drafts hne
    have hne' : drafts.isEmpty = false := by
      cases drafts with
      | nil => exact absurd rfl hne
      | cons d t => rfl
    constructor
    · intro l
      simp only [runSingleScraper, hne', Bool.not_false, if_pos,
        deleteStaleListings, List.mem_filter, isStale]
      constructor
      · rintro ⟨hmem, hkeep⟩
        refine ⟨hmem, ?_⟩
        rintro ⟨hsite, hrun⟩
        simp [hsite, bne_iff_ne, hrun] at hkeep
      · rintro ⟨hmem, hni⟩
        refine ⟨hmem, ?_⟩
        by_cases hsite : l.source_site = site
        · have hrun : l.last_seen_run_id = some runId := by
            by_contra hrun
            exact hni ⟨hsite, hrun⟩
          simp [hsite, hrun]
        · simp [hsite]
    · simp only [runSingleScraper, hne', Bool.not_false, if_pos, deleteStaleListings]

/-- Witness for C1 at the 10-listings / 7-reseen instance. -/
theorem c1_safe_staleness_witness :
    draftsSeven ≠ [] ∧
    (runSingleScraper dbTen "s" "r1" draftsSeven).2.deleted =
      ((saveListings dbTen draftsSeven (some "r1")).1.filter (isStale "s" "r1")).length :=
  ⟨by decide, (c1_safe_staleness.2.1 dbTen "s" "r1" draftsSeven (by decide)).2⟩

/-- C10: the non-empty guard of `run_single_scraper` inspects the raw
drafts, so a non-empty crawl whose items all fail validation saves
nothing and stamps nothing, yet stale deletion still runs and, with a
fresh run id, deletes every stored listing of the site. -/
theorem c10_unvalidated_guard :
    ∀ (db : List DbListing) (site runId : String) (drafts : List Draft),
      drafts ≠ [] →
      (∀ d ∈ drafts, validDraft d = false) →
      (∀ l ∈ db, l.last_seen_run_id ≠ some runId) →
      (saveListings db drafts (some runId)).1 = db ∧
      (saveListings db drafts (some runId)).2.saved = 0 ∧
      (saveListings db drafts (some runId)).2.updated = 0 ∧
      (runSingleScraper db site runId drafts).1 =
        db.filter (fun l => !(l.source_site == site)) ∧
      (runSingleScraper db site runId drafts).2.deleted =
        (db.filter (fun l => l.source_site == site)).length := by
  intro db site runId drafts hne hinvalid hfresh
  have hne' : drafts.isEmpty = false := by
    cases drafts with
    | nil => exact absurd rfl hne
    | cons d t => rfl
  have hops : drafts.filter validDraft = [] := by
    apply List.filter_eq_nil_iff.2
    intro d hd
    simp [hinvalid d hd]
  have hsave : saveListings db drafts (some runId) =
      (db, ⟨0, 0, (drafts.filter (fun d => !validDraft d)).length, 0⟩) := by
    simp [saveListings, hne', hops]
  have hstale : ∀ l ∈ db, isStale site runId l = (l.source_site == site) := by
    intro l hl
    simp only [isStale, bne_iff_ne, ne_eq]
    have := hfresh l hl
    simp [this]
  refine ⟨by rw [hsave], by rw [hsave], by rw [hsave], ?_, ?_⟩
  · simp only [runSingleScraper, hne', Bool.not_false, if_pos, hsave,
      deleteStaleListings]
    exact List.filter_congr fun l hl => by rw [hstale l hl]
  · simp only [runSingleScraper, hne', Bool.not_false, if_pos, hsave,
      deleteStaleListings]
    congr 1
    exact List.filter_congr fun l hl => hstale l hl

/-- Witness for C10: ten listings of site `s`, one invalid draft, a
fresh run id; all ten are deleted. -/
theorem c10_unvalidated_guard_witness :
    ((runSingleScraper dbTen "s" "r1" draftsInvalid).2.deleted =
      (dbTen.filter (fun l => l.source_site == "s")).length) ∧
    (dbTen.filter (fun l => l.source_site == "s")).length = 10 :=
  ⟨(c10_unvalidated_guard dbTen "s" "r1" draftsInvalid (by decide) (by decide)
      (by decide)).2.2.2.2,
   by decide⟩

theorem fetchPageAux_retriable (resp : Nat → FetchEvent) (maxRetries : Nat)
    (hr : ∀ i, i < maxRetries → retriable (resp i) = true) :
    ∀ (fuel attempt : Nat), maxRetries ≤ attempt + fuel →
      fetchPageAux resp maxRetries fuel attempt =
        (none, (List.range' attempt (maxRetries - 1 - attempt)).map
          (fun i => retryDelay (resp i) i)) := by
  intro fuel
  induction fuel with
  | zero =>
    intro attempt h
    have h0 : maxRetries - 1 - attempt = 0 := by omega
    simp [fetchPageAux, h0]
  | succ fuel ih =>
    intro attempt h
    by_cases ha : attempt < maxRetries
    · have hev := hr attempt ha
      cases hev' : resp attempt with
      | response code body =>
        rw [hev'] at hev
        simp only [retriable, Bool.and_eq_true, decide_eq_true_eq] at hev
        have hcode : 400 ≤ code ∧ code < 600 := hev
        by_cases hlast : attempt < maxRetries - 1
        · have hrange : maxRetries - 1 - attempt = (maxRetries - 1 - (attempt + 1)) + 1 := by
            omega
          simp only [fetchPageAux, if_pos ha, hev', if_pos hcode, if_pos hlast,
            ih (attempt + 1) (by omega)]
          rw [hrange]
          simp [List.range', retryDelay, hev']
        · have h1 : maxRetries - 1 - attempt = 0 := by omega
          have h2 : maxRetries - 1 - (attempt + 1) = 0 := by omega
          simp only [fetchPageAux, if_pos ha, hev', if_pos hcode, if_neg hlast,
            ih (attempt + 1) (by omega)]
          simp [h1, h2]
      | timeout =>
        by_cases hlast : attempt < maxRetries - 1
        · have hrange : maxRetries - 1 - attempt = (maxRetries - 1 - (attempt + 1)) + 1 := by
            omega
          simp only [fetchPageAux, if_pos ha, hev', if_pos hlast,
            ih (attempt + 1) (by omega)]
          rw [hrange]
          simp [List.range', retryDelay, hev']
        · have h1 : maxRetries - 1 - attempt = 0 := by omega
          have h2 : maxRetries - 1 - (attempt + 1) = 0 := by omega
          simp only [fetchPageAux, if_pos ha, hev', if_neg hlast,
            ih (attempt + 1) (by omega)]
          simp [h1, h2]
      | connError =>
        by_cases hlast : attempt < maxRetries - 1
        · have hrange : maxRetries - 1 - attempt = (maxRetries - 1 - (attempt + 1)) + 1 := by
            omega
          simp only [fetchPageAux, if_pos ha, hev', if_pos hlast,
            ih (attempt + 1) (by omega)]
          rw [hrange]
          simp [List.range', retryDelay, hev']
        · have h1 : maxRetries - 1 - attempt = 0 := by omega
          have h2 : maxRetries - 1 - (attempt + 1) = 0 := by omega
          simp only [fetchPageAux, if_pos ha, hev', if_neg hlast,
            ih (attempt + 1) (by omega)]
          simp [h1, h2]
    · have h0 : maxRetries - 1 - attempt = 0 := by omega
      simp [fetchPageAux, if_neg ha, h0]

/-- C2 amended: on HTTP statuses surfaced as `HTTPError` (403 included)
and on timeouts, `fetch_page` makes up to `max_retries` total attempts
and returns `None` after exhausting them, but the backoff is linear,
not exponential: the sleep after failing attempt number `attempt`
(0-based) is `2 * (attempt + 1)` seconds for an HTTP error and a
constant 2 seconds for a timeout or other exception. -/
theorem c2_linear_backoff_amended :
    ∀ (resp : Nat → FetchEvent) (maxRetries : Nat),
      (∀ i, i < maxRetries → retriable (resp i) = true) →
      fetchPage resp maxRetries =
        (none, (List.range (maxRetries - 1)).map (fun i => retryDelay (resp i) i)) := by
  intro resp maxRetries hr
  have h := fetchPageAux_retriable resp maxRetries hr maxRetries 0 (by omega)
  rw [fetchPage, h, List.range_eq_range']
  simp

/-- Witness for C2 at a server answering 403 on all of 3 attempts. -/
theorem c2_linear_backoff_amended_witness :
    (∀ i, i < 3 → retriable (always403 i) = true) ∧
    fetchPage always403 3 =
      (none, (List.range (3 - 1)).map (fun i => retryDelay (always403 i) i)) :=
  ⟨by decide, c2_linear_backoff_amended always403 3 (by decide)⟩

theorem mongo_upsert_found {α : Type} (p : α → Bool) (f : α → α)
    (hf : ∀ x, p (f x) = p x) (l : List α) (r : α)
    (hfind : l.find? p = some r) (hcount : (l.filter p).length ≤ 1) :
    (updateFirst p f l).find? p = some (f r) ∧
    ((updateFirst p f (updateFirst p f l)).filter p).length = 1 := by
  constructor
  · rw [find?_updateFirst p f l hf, hfind]
    rfl
  · rw [length_filter_updateFirst p p f _ hf, length_filter_updateFirst p p f _ hf]
    have := find?_some_filter_pos p l r hfind
    omega

theorem mongo_upsert_missing {α : Type} (p : α → Bool) (f : α → α)
    (hf : ∀ x, p (f x) = p x) (l : List α) (row : α)
    (hrow : p row = true) (hfind : l.find? p = none) :
    (l ++ [row]).find? p = some row ∧
    ((updateFirst p f (l ++ [row])).filter p).length = 1 := by
  have hnone : ∀ a ∈ l, ¬ p a := List.find?_eq_none.1 hfind
  constructor
  · rw [List.find?_append, hfind]
    simp [List.find?, hrow]
  · rw [length_filter_updateFirst p p f _ hf, List.filter_append]
    have h1 : l.filter p = [] := List.filter_eq_nil_iff.2 hnone
    simp [h1, List.filter, hrow]

/-- C8: each catalog upsert is idempotent: given the unique-index
invariant (at most one row per norm within scope), calling
`upsert_make` twice with the same label — and likewise `upsert_series`
under a make and `upsert_model` under a make and optional series —
returns the same canonical id both times and leaves exactly one row
with that norm in its scope, creating no duplicate. -/
theorem c8_upsert_idempotence :
    ∀ (st : Catalog) (label : List Nat) (makeId : Nat) (seriesId : Option Nat),
      (countMakeNorm st.makes (normLabel (cleanLabel label)) ≤ 1 →
        (upsertMake (upsertMake st label).2 label).1 = (upsertMake st label).1 ∧
        (upsertMake (upsertMake st label).2 label).2.makes.length =
          (upsertMake st label).2.makes.length ∧
        countMakeNorm (upsertMake (upsertMake st label).2 label).2.makes
          (normLabel (cleanLabel label)) = 1) ∧
      (countSeriesNorm st.series makeId (normLabel (cleanLabel label)) ≤ 1 →
        (upsertSeries (upsertSeries st makeId label).2 makeId label).1 =
          (upsertSeries st makeId label).1 ∧
        (upsertSeries (upsertSeries st makeId label).2 makeId label).2.series.length =
          (upsertSeries st makeId label).2.series.length ∧
        countSeriesNorm (upsertSeries (upsertSeries st makeId label).2 makeId label).2.series
          makeId (normLabel (cleanLabel label)) = 1) ∧
      (countModelNorm st.models makeId seriesId (normLabel (cleanLabel label)) ≤ 1 →
        (upsertModel (upsertModel st makeId label seriesId).2 makeId label seriesId).1 =
          (upsertModel st makeId label seriesId).1 ∧
        (upsertModel (upsertModel st makeId label seriesId).2 makeId label seriesId).2.models.length =
          (upsertModel st makeId label seriesId).2.models.length ∧
        countModelNorm
          (upsertModel (upsertModel st makeId label seriesId).2 makeId label seriesId).2.models
          makeId seriesId (normLabel (cleanLabel label)) = 1) := by
  intro st label makeId seriesId
  refine ⟨?_, ?_, ?_⟩
  · intro hcount
    rw [countMakeNorm] at hcount
    cases hfind : st.makes.find? (fun r => r.norm == normLabel (cleanLabel label)) with
    | some r =>
      have h := mongo_upsert_found (fun r : MakeRow => r.norm == normLabel (cleanLabel label))
        (fun x => { x with name_et := cleanLabel label }) (fun x => rfl)
        st.makes r hfind hcount
      simp only [upsertMake, hfind, h.1]
      exact ⟨by trivial, by simp [updateFirst_length], by rw [countMakeNorm]; exact h.2⟩
    | none =>
      have h := mongo_upsert_missing (fun r : MakeRow => r.norm == normLabel (cleanLabel label))
        (fun x => { x with name_et := cleanLabel label }) (fun x => rfl)
        st.makes ⟨st.nextId, normLabel (cleanLabel label), cleanLabel label⟩
        (by simp) hfind
      simp only [upsertMake, hfind, h.1]
      exact ⟨by trivial, by simp [updateFirst_length], by rw [countMakeNorm]; exact h.2⟩
  · intro hcount
    rw [countSeriesNorm] at hcount
    cases hfind : st.series.find?
        (fun r => r.make_id == makeId && r.norm == normLabel (cleanLabel label)) with
    | some r =>
      have h := mongo_upsert_found
        (fun r : SeriesRow => r.make_id == makeId && r.norm == normLabel (cleanLabel label))
        (fun x => { x with name_et := cleanLabel label }) (fun x => rfl)
        st.series r hfind hcount
      simp only [upsertSeries, hfind, h.1]
      exact ⟨by trivial, by simp [updateFirst_length], by rw [countSeriesNorm]; exact h.2⟩
    | none =>
      have h := mongo_upsert_missing
        (fun r : SeriesRow => r.make_id == makeId && r.norm == normLabel (cleanLabel label))
        (fun x => { x with name_et := cleanLabel label }) (fun x => rfl)
        st.series ⟨st.nextId, makeId, normLabel (cleanLabel label), cleanLabel label⟩
        (by simp) hfind
      simp only [upsertSeries, hfind, h.1]
      exact ⟨by trivial, by simp [updateFirst_length], by rw [countSeriesNorm]; exact h.2⟩
  · intro hcount
    rw [countModelNorm] at hcount
    cases hfind : st.models.find?
        (fun r => r.make_id == makeId && r.series_id == seriesId &&
          r.norm == normLabel (cleanLabel label)) with
    | some r =>
      have h := mongo_upsert_found
        (fun r : ModelRow => r.make_id == makeId && r.series_id == seriesId &&
          r.norm == normLabel (cleanLabel label))
        (fun x => { x with name_et := cleanLabel label }) (fun x => rfl)
        st.models r hfind hcount
      simp only [upsertModel, hfind, h.1]
      exact ⟨by trivial, by simp [updateFirst_length], by rw [countModelNorm]; exact h.2⟩
    | none =>
      have h := mongo_upsert_missing
        (fun r : ModelRow => r.make_id == makeId && r.series_id == seriesId &&
          r.norm == normLabel (cleanLabel label))
        (fun x => { x with name_et := cleanLabel label }) (fun x => rfl)
        st.models ⟨st.nextId, makeId, seriesId, normLabel (cleanLabel label), cleanLabel label⟩
        (by simp) hfind
      simp only [upsertModel, hfind, h.1]
      exact ⟨by trivial, by simp [updateFirst_length], by rw [countModelNorm]; exact h.2⟩

/-- Witness for C8 at the empty catalog and the label BMW. -/
theorem c8_upsert_idempotence_witness :
    countMakeNorm cat0.makes (normLabel (cleanLabel (pyStr "BMW"))) ≤ 1 ∧
    (upsertMake (upsertMake cat0 (pyStr "BMW")).2 (pyStr "BMW")).1 =
      (upsertMake cat0 (pyStr "BMW")).1 ∧
    countMakeNorm (upsertMake (upsertMake cat0 (pyStr "BMW")).2 (pyStr "BMW")).2.makes
      (normLabel (cleanLabel (pyStr "BMW"))) = 1 :=
  ⟨by decide,
   ((c8_upsert_idempotence cat0 (pyStr "BMW") 1 none).1 (by decide)).1,
   ((c8_upsert_idempotence cat0 (pyStr "BMW") 1 none).1 (by decide)).2.2⟩

theorem pairwise_mongo_id_inj (L : List Listing)
    (h : L.Pairwise (fun a b => a.mongo_id ≠ b.mongo_id)) :
    ∀ a ∈ L, ∀ b ∈ L, a.mongo_id = b.mongo_id → a = b := by
  intro a ha b hb heq
  by_cases hab : a = b
  · exact hab
  · have hsym : Symmetric (fun a b : Listing => a.mongo_id ≠ b.mongo_id) :=
      fun x y hxy => hxy.symm
    exact absurd heq (h.forall hsym ha hb hab)

theorem setCanonicalIds_idem (l : Listing) (ids : ResolvedIds) :
    setCanonicalIds (setCanonicalIds l ids) ids = setCanonicalIds l ids :=
  rfl

theorem resolveFold_good (m : List Mapping) (L0 : List Listing)
    (hinj : ∀ a ∈ L0, ∀ b ∈ L0, a.mongo_id = b.mongo_id → a = b) :
    ∀ (cur : List Listing) (db : List Listing) (st : ResolveStats),
      (∀ c ∈ cur, c ∈ L0) →
      (∀ x ∈ db, GoodWrt m L0 x) →
      ∀ y ∈ (cur.foldl (resolveStep m) (db, st)).1, GoodWrt m L0 y := by
  intro cur
  induction cur with
  | nil =>
    intro db st _ hdb y hy
    exact hdb y hy
  | cons c t ih =>
    intro db st hcur hdb y hy
    rw [List.foldl_cons] at hy
    by_cases hcond : ((resolveOneListing m c).make_id.isSome &&
        (resolveOneListing m c).model_id.isSome) = true
    · have hstep : resolveStep m (db, st) c =
          (updateFirst (fun x => x.mongo_id == c.mongo_id)
            (fun x => setCanonicalIds x (resolveOneListing m c)) db,
           { st with updated := st.updated + 1 }) := by
        simp [resolveStep, hcond]
      rw [hstep] at hy
      refine ih _ _ (fun d hd => hcur d (List.mem_cons_of_mem c hd)) ?_ y hy
      intro x hx
      rcases updateFirst_mem _ _ _ x hx with hmem | ⟨z, hz, hpz, hxz⟩
      · exact hdb x hmem
      · have hzc : z.mongo_id = c.mongo_id := by
          simpa using hpz
        have hcs : (resolveOneListing m c).make_id.isSome = true ∧
            (resolveOneListing m c).model_id.isSome = true := by
          rw [Bool.and_eq_true] at hcond
          exact hcond
        rcases hdb z hz with ⟨l, hl, hid, hcase⟩
        have hcl : c = l :=
          hinj c (hcur c (List.mem_cons_self c t)) l hl (by rw [← hzc, hid])
        rcases hcase with hzl | ⟨hm, hmo, hzl⟩
        · -- z itself was the untouched original l
          refine ⟨l, hl, ?_, Or.inr ⟨?_, ?_, ?_⟩⟩
          · rw [hxz, hzl]
            rfl
          · rw [← hcl]
            exact hcs.1
          · rw [← hcl]
            exact hcs.2
          · rw [hxz, hzl, hcl]
        · -- z was already the fully-written version of l
          refine ⟨l, hl, ?_, Or.inr ⟨hm, hmo, ?_⟩⟩
          · rw [hxz, hzl]
            rfl
          · rw [hxz, hzl, hcl, setCanonicalIds_idem]
    · have hstep : resolveStep m (db, st) c =
          (db, { st with skipped := st.skipped + 1 }) := by
        simp [resolveStep, hcond]
      rw [hstep] at hy
      exact ih _ _ (fun d hd => hcur d (List.mem_cons_of_mem c hd)) hdb y hy

theorem resolveFold_counts (m : List Mapping) :
    ∀ (cur : List Listing) (db : List Listing) (st : ResolveStats),
      (cur.foldl (resolveStep m) (db, st)).2.updated =
        st.updated + (cur.filter (bothResolved m)).length ∧
      (cur.foldl (resolveStep m) (db, st)).2.skipped =
        st.skipped + (cur.filter (fun l => !bothResolved m l)).length := by
  intro cur
  induction cur with
  | nil => simp
  | cons c t ih =>
    intro db st
    by_cases hcond : bothResolved m c = true
    · have hcond' : ((resolveOneListing m c).make_id.isSome &&
          (resolveOneListing m c).model_id.isSome) = true := hcond
      have hstep : resolveStep m (db, st) c =
          (updateFirst (fun x => x.mongo_id == c.mongo_id)
            (fun x => setCanonicalIds x (resolveOneListing m c)) db,
           { st with updated := st.updated + 1 }) := by
        simp [resolveStep, hcond']
      rw [List.foldl_cons, hstep]
      rcases ih (updateFirst (fun x => x.mongo_id == c.mongo_id)
          (fun x => setCanonicalIds x (resolveOneListing m c)) db)
        { st with updated := st.updated + 1 } with ⟨h1, h2⟩
      rw [h1, h2]
      simp [List.filter_cons, hcond]
      omega
    · have hcond' : ((resolveOneListing m c).make_id.isSome &&
          (resolveOneListing m c).model_id.isSome) = false := by
        simpa [bothResolved] using hcond
      have hstep : resolveStep m (db, st) c =
          (db, { st with skipped := st.skipped + 1 }) := by
        simp [resolveStep, hcond']
      rw [List.foldl_cons, hstep]
      rcases ih db { st with skipped := st.skipped + 1 } with ⟨h1, h2⟩
      rw [h1, h2]
      simp [List.filter_cons, hcond]
      omega

/-- C5: over a store with distinct listing ids, every listing after
`resolve_all_unresolved` is either an original listing left untouched
(counted as skipped) or an original listing whose make and model both
resolved and whose `make_id`, `series_id` (possibly null) and
`model_id` were written together in one update (counted as updated); a
lone `make_id` is never persisted, and the updated/skipped counters
partition the cursor by whether both ids resolved. -/
theorem c5_resolution_atomicity :
    ∀ (mappings : List Mapping) (listings : List Listing) (limit : Nat),
      listings.Pairwise (fun a b => a.mongo_id ≠ b.mongo_id) →
      (∀ y ∈ (resolveAllUnresolved mappings listings limit).1,
        GoodWrt mappings listings y) ∧
      (resolveAllUnresolved mappings listings limit).2.updated =
        ((unresolvedCursor listings limit).filter (bothResolved mappings)).length ∧
      (resolveAllUnresolved mappings listings limit).2.skipped =
        ((unresolvedCursor listings limit).filter
          (fun l => !bothResolved mappings l)).length := by
  intro m L limit hpw
  have hinj := pairwise_mongo_id_inj L hpw
  have hcur : ∀ c ∈ unresolvedCursor L limit, c ∈ L := by
    intro c hc
    unfold unresolvedCursor at hc
    by_cases h0 : 0 < limit
    · rw [if_pos h0] at hc
      exact List.mem_of_mem_filter (List.mem_of_mem_take hc)
    · rw [if_neg h0] at hc
      exact List.mem_of_mem_filter hc
  have heq : resolveAllUnresolved m L limit =
      (unresolvedCursor L limit).foldl (resolveStep m) (L, ⟨0, 0⟩) := rfl
  refine ⟨?_, ?_, ?_⟩
  · rw [heq]
    exact resolveFold_good m L hinj _ L ⟨0, 0⟩ hcur
      (fun x hx => ⟨x, hx, rfl, Or.inl rfl⟩)
  · rw [heq, (resolveFold_counts m (unresolvedCursor L limit) L ⟨0, 0⟩).1]
    simp
  · rw [heq, (resolveFold_counts m (unresolvedCursor L limit) L ⟨0, 0⟩).2]
    simp

theorem lowerChar_idem (n : Nat) : lowerChar (lowerChar n) = lowerChar n := by
  unfold lowerChar
  by_cases h1 : 65 ≤ n ∧ n ≤ 90
  · rw [if_pos h1, if_neg (by omega), if_neg (by omega)]
  · rw [if_neg h1]
    by_cases h2 : n = 213
    · rw [if_pos h2, if_neg (by omega), if_neg (by omega)]
    · rw [if_neg h2, if_neg h1, if_neg h2]

theorem lowerStr_idem (s : List Nat) : lowerStr (lowerStr s) = lowerStr s := by
  induction s with
  | nil => rfl
  | cons a t ih => simp only [lowerStr, List.map_cons] at *; rw [lowerChar_idem, ih]

theorem isSpace_lowerChar (n : Nat) : isSpace (lowerChar n) = isSpace n := by
  unfold lowerChar
  by_cases h1 : 65 ≤ n ∧ n ≤ 90
  · rw [if_pos h1]
    simp only [isSpace]
    have e1 : (n + 32 = 32) = False := eq_false (by omega)
    have e2 : (n + 32 = 9) = False := eq_false (by omega)
    have e3 : (n + 32 = 10) = False := eq_false (by omega)
    have e4 : (n + 32 = 13) = False := eq_false (by omega)
    have e5 : (n + 32 = 11) = False := eq_false (by omega)
    have e6 : (n + 32 = 12) = False := eq_false (by omega)
    have f1 : (n = 32) = False := eq_false (by omega)
    have f2 : (n = 9) = False := eq_false (by omega)
    have f3 : (n = 10) = False := eq_false (by omega)
    have f4 : (n = 13) = False := eq_false (by omega)
    have f5 : (n = 11) = False := eq_false (by omega)
    have f6 : (n = 12) = False := eq_false (by omega)
    simp [e1, e2, e3, e4, e5, e6, f1, f2, f3, f4, f5, f6]
  · rw [if_neg h1]
    by_cases h2 : n = 213
    · subst h2
      rw [if_pos rfl]
      rfl
    · rw [if_neg h2]

theorem lowerChar_eq_32_iff (n : Nat) : lowerChar n = 32 ↔ n = 32 := by
  unfold lowerChar
  by_cases h1 : 65 ≤ n ∧ n ≤ 90
  · rw [if_pos h1]
    omega
  · rw [if_neg h1]
    by_cases h2 : n = 213
    · rw [if_pos h2]
      omega
    · rw [if_neg h2]

theorem headOk_lowerStr (s : List Nat) : headOk (lowerStr s) = headOk s := by
  cases s with
  | nil => rfl
  | cons a t => simp only [lowerStr, List.map_cons, headOk, isSpace_lowerChar]

theorem headOk_append_left (l m : List Nat) (h : l ≠ []) :
    headOk (l ++ m) = headOk l := by
  cases l with
  | nil => exact absurd rfl h
  | cons a t => rfl

theorem headOk_reverse (l : List Nat) : headOk l.reverse = lastOk l := by
  induction l with
  | nil => rfl
  | cons a t ih =>
    cases t with
    | nil => rfl
    | cons b t2 =>
      have hne : (b :: t2).reverse ≠ [] := by simp
      rw [List.reverse_cons, headOk_append_left _ _ hne, ih]
      rfl

theorem lastOk_lowerStr (s : List Nat) : lastOk (lowerStr s) = lastOk s := by
  rw [← headOk_reverse, ← headOk_reverse s]
  have h : (lowerStr s).reverse = lowerStr s.reverse := by
    simp [lowerStr]
  rw [h, headOk_lowerStr]

theorem headOk_lstrip (s : List Nat) : headOk (lstrip s) = true := by
  induction s with
  | nil => rfl
  | cons a t ih =>
    by_cases h : isSpace a = true
    · simpa [lstrip, List.dropWhile_cons, h] using ih
    · simp [lstrip, List.dropWhile_cons, h, headOk]

theorem lstrip_eq_self (s : List Nat) (h : headOk s = true) : lstrip s = s := by
  cases s with
  | nil => rfl
  | cons a t =>
    have ha : isSpace a = false := by
      simpa [headOk] using h
    simp [lstrip, List.dropWhile_cons, ha]

theorem lastOk_rstrip (s : List Nat) : lastOk (rstrip s) = true := by
  rw [← headOk_reverse]
  unfold rstrip
  rw [List.reverse_reverse]
  exact headOk_lstrip s.reverse

theorem rstrip_append_eq (s : List Nat) :
    rstrip s ++ (s.reverse.takeWhile isSpace).reverse = s := by
  unfold rstrip lstrip
  rw [← List.reverse_append, List.takeWhile_append_dropWhile, List.reverse_reverse]

theorem headOk_rstrip (s : List Nat) (h : headOk s = true) :
    headOk (rstrip s) = true := by
  by_cases hr : rstrip s = []
  · rw [hr]
    rfl
  · rw [← rstrip_append_eq s, headOk_append_left _ _ hr] at h
    exact h

theorem rstrip_eq_self (s : List Nat) (h : lastOk s = true) : rstrip s = s := by
  unfold rstrip
  rw [lstrip_eq_self _ (by rw [headOk_reverse]; exact h), List.reverse_reverse]

theorem headOk_strip (s : List Nat) : headOk (strip s) = true :=
  headOk_rstrip _ (headOk_lstrip s)

theorem lastOk_strip (s : List Nat) : lastOk (strip s) = true :=
  lastOk_rstrip _

theorem strip_eq_self (s : List Nat) (h1 : headOk s = true) (h2 : lastOk s = true) :
    strip s = s := by
  unfold strip
  rw [lstrip_eq_self s h1, rstrip_eq_self s h2]

theorem headOk_dropKoik (s : List Nat) (h : headOk s = true) :
    headOk (dropKoik s) = true := by
  unfold dropKoik
  by_cases hk : endsWithKoik s = true
  · rw [if_pos hk]
    exact headOk_strip _
  · rw [if_neg hk]
    exact h

theorem lastOk_dropKoik (s : List Nat) (h : lastOk s = true) :
    lastOk (dropKoik s) = true := by
  unfold dropKoik
  by_cases hk : endsWithKoik s = true
  · rw [if_pos hk]
    exact lastOk_strip _
  · rw [if_neg hk]
    exact h

theorem dropKoik_eq_self (s : List Nat) (h : endsWithKoik s = false) :
    dropKoik s = s := by
  unfold dropKoik
  rw [h]
  rfl

theorem dotfold_cons (a : Nat) (l : List Nat) :
    ∃ t, dotfold (a :: l) = a :: t := by
  cases l with
  | nil => exact ⟨[], rfl⟩
  | cons b rest =>
    by_cases h : (isDigit a && b = 46) = true
    · exact ⟨dotfold rest, by simp [dotfold, h]⟩
    · exact ⟨dotfold (b :: rest), by simp [dotfold, h]⟩

theorem headOk_dotfold (s : List Nat) (h : headOk s = true) :
    headOk (dotfold s) = true := by
  cases s with
  | nil => rfl
  | cons a l =>
    obtain ⟨t, ht⟩ := dotfold_cons a l
    rw [ht]
    exact h

theorem isDigit_not_isSpace (n : Nat) (h : isDigit n = true) : isSpace n = false := by
  simp only [isDigit, Bool.and_eq_true, decide_eq_true_eq] at h
  simp only [isSpace]
  have f1 : (n = 32) = False := eq_false (by omega)
  have f2 : (n = 9) = False := eq_false (by omega)
  have f3 : (n = 10) = False := eq_false (by omega)
  have f4 : (n = 13) = False := eq_false (by omega)
  have f5 : (n = 11) = False := eq_false (by omega)
  have f6 : (n = 12) = False := eq_false (by omega)
  simp [f1, f2, f3, f4, f5, f6]

theorem lastOk_cons_of_ne_nil (a : Nat) (m : List Nat) (h : m ≠ []) :
    lastOk (a :: m) = lastOk m := by
  cases m with
  | nil => exact absurd rfl h
  | cons b t => rfl

theorem lastOk_dotfold (s : List Nat) (h : lastOk s = true) :
    lastOk (dotfold s) = true := by
  induction s using dotfold.induct with
  | case1 => rfl
  | case2 a => exact h
  | case3 a b rest hcond ih =>
    rw [dotfold, if_pos hcond]
    cases rest with
    | nil =>
      have hcond2 := hcond
      rw [Bool.and_eq_true] at hcond2
      have := isDigit_not_isSpace a hcond2.1
      simp [dotfold, lastOk, this]
    | cons c r2 =>
      obtain ⟨t, ht⟩ := dotfold_cons c r2
      have hr : lastOk (c :: r2) = true := h
      rw [ht, lastOk_cons_of_ne_nil a _ (by simp)]
      rw [← ht]
      exact ih hr
  | case4 a b rest hcond ih =>
    rw [dotfold, if_neg hcond]
    obtain ⟨t, ht⟩ := dotfold_cons b rest
    rw [ht, lastOk_cons_of_ne_nil a _ (by simp)]
    rw [← ht]
    exact ih h

theorem dotfold_eq_self (s : List Nat) (h : hasDigitDot s = false) :
    dotfold s = s := by
  induction s using dotfold.induct with
  | case1 => rfl
  | case2 a => rfl
  | case3 a b rest hcond ih =>
    exfalso
    have : hasDigitDot (a :: b :: rest) = true := by
      simp [hasDigitDot, hcond]
    rw [h] at this
    exact Bool.false_ne_true this
  | case4 a b rest hcond ih =>
    have h2 : hasDigitDot (b :: rest) = false := by
      have := h
      simp only [hasDigitDot, Bool.or_eq_false_iff] at this
      exact this.2
    rw [dotfold, if_neg hcond, ih h2]

theorem collapse_cons_ne_nil (l : List Nat) (b : Nat) : collapse (b :: l) ≠ [] := by
  induction l generalizing b with
  | nil => simp [collapse]
  | cons c rest ih =>
    by_cases hc : (isSpace b && isSpace c) = true
    · simpa [collapse, hc] using ih c
    · simp [collapse, hc]

theorem headOk_collapse (s : List Nat) (h : headOk s = true) :
    headOk (collapse s) = true := by
  cases s with
  | nil => rfl
  | cons a t =>
    have ha : isSpace a = false := by simpa [headOk] using h
    cases t with
    | nil => simp [collapse, ha, headOk]
    | cons b rest => simp [collapse, ha, headOk]

theorem lastOk_collapse (s : List Nat) (h : lastOk s = true) :
    lastOk (collapse s) = true := by
  induction s using collapse.induct with
  | case1 => rfl
  | case2 c =>
    have hc : isSpace c = false := by simpa [lastOk] using h
    simp [collapse, hc, lastOk]
  | case3 a b rest hc ih =>
    have step : collapse (a :: b :: rest) = collapse (b :: rest) := by
      simp [collapse, hc]
    rw [step]
    exact ih h
  | case4 a b rest hc ih =>
    have step : collapse (a :: b :: rest) =
        (if isSpace a then 32 else a) :: collapse (b :: rest) := by
      simp [collapse, hc]
    obtain ⟨c2, t2, hct⟩ : ∃ c2 t2, collapse (b :: rest) = c2 :: t2 := by
      cases hcol : collapse (b :: rest) with
      | nil => exact absurd hcol (collapse_cons_ne_nil rest b)
      | cons c2 t2 => exact ⟨c2, t2, rfl⟩
    rw [step, hct, lastOk_cons_of_ne_nil _ _ (by simp), ← hct]
    exact ih h

theorem spacesOk_lowerStr (s : List Nat) : spacesOk (lowerStr s) = spacesOk s := by
  induction s using spacesOk.induct with
  | case1 => rfl
  | case2 c =>
    have e1 : spacesOk (lowerStr [c]) =
        (!isSpace (lowerChar c) || decide (lowerChar c = 32)) := rfl
    have e2 : spacesOk [c] = (!isSpace c || decide (c = 32)) := rfl
    rw [e1, e2, isSpace_lowerChar, decide_eq_decide.mpr (lowerChar_eq_32_iff c)]
  | case3 a b rest ih =>
    have e1 : spacesOk (lowerStr (a :: b :: rest)) =
        ((!isSpace (lowerChar a) ||
          (decide (lowerChar a = 32) && !isSpace (lowerChar b))) &&
         spacesOk (lowerStr (b :: rest))) := rfl
    have e2 : spacesOk (a :: b :: rest) =
        ((!isSpace a || (decide (a = 32) && !isSpace b)) && spacesOk (b :: rest)) := rfl
    rw [e1, e2, ih, isSpace_lowerChar, isSpace_lowerChar,
      decide_eq_decide.mpr (lowerChar_eq_32_iff a)]

theorem spacesOk_collapse (s : List Nat) : spacesOk (collapse s) = true := by
  induction s using collapse.induct with
  | case1 => rfl
  | case2 c =>
    by_cases hc : isSpace c = true
    · have step : collapse [c] = [32] := by simp [collapse, hc]
      rw [step]
      decide
    · have step : collapse [c] = [c] := by simp [collapse, hc]
      rw [step]
      have e : spacesOk [c] = (!isSpace c || decide (c = 32)) := rfl
      have hc' : isSpace c = false := by simpa using hc
      rw [e, hc']
      simp
  | case3 a b rest hc ih =>
    have step : collapse (a :: b :: rest) = collapse (b :: rest) := by
      simp [collapse, hc]
    rw [step]
    exact ih
  | case4 a b rest hc ih =>
    have step : collapse (a :: b :: rest) =
        (if isSpace a then 32 else a) :: collapse (b :: rest) := by
      simp [collapse, hc]
    obtain ⟨c2, t2, hct⟩ : ∃ c2 t2, collapse (b :: rest) = c2 :: t2 := by
      cases hcol : collapse (b :: rest) with
      | nil => exact absurd hcol (collapse_cons_ne_nil rest b)
      | cons c2 t2 => exact ⟨c2, t2, rfl⟩
    have hrec : spacesOk (c2 :: t2) = true := by
      rw [← hct]
      exact ih
    by_cases hsa : isSpace a = true
    · have hsb : isSpace b = false := by
        rcases Bool.and_eq_true (isSpace a) (isSpace b) ▸ hc with h
        by_contra hb
        exact hc (by simp [hsa, by simpa using hb])
      have hc2 : isSpace c2 = false := by
        have hh : headOk (collapse (b :: rest)) = true :=
          headOk_collapse (b :: rest) (by simp [headOk, hsb])
        rw [hct] at hh
        simpa [headOk] using hh
      rw [step, hct]
      have e : spacesOk ((if isSpace a then 32 else a) :: c2 :: t2) =
          ((!isSpace (if isSpace a then 32 else a) ||
            (decide ((if isSpace a then 32 else a) = 32) && !isSpace c2)) &&
           spacesOk (c2 :: t2)) := rfl
      rw [e, if_pos hsa, hrec, hc2]
      simp
    · rw [step, hct]
      have e : spacesOk ((if isSpace a then 32 else a) :: c2 :: t2) =
          ((!isSpace (if isSpace a then 32 else a) ||
            (decide ((if isSpace a then 32 else a) = 32) && !isSpace c2)) &&
           spacesOk (c2 :: t2)) := rfl
      have hsa' : isSpace a = false := by simpa using hsa
      rw [e, if_neg (by simp [hsa']), hrec, hsa']
      simp

theorem collapse_eq_self (s : List Nat) (h : spacesOk s = true) : collapse s = s := by
  induction s using collapse.induct with
  | case1 => rfl
  | case2 c =>
    have e : spacesOk [c] = (!isSpace c || decide (c = 32)) := rfl
    rw [e] at h
    by_cases hc : isSpace c = true
    · have h32 : c = 32 := by
        rw [hc] at h
        simpa using h
      simp [collapse, hc, h32]
    · simp [collapse, hc]
  | case3 a b rest hc ih =>
    exfalso
    have e : spacesOk (a :: b :: rest) =
        ((!isSpace a || (decide (a = 32) && !isSpace b)) && spacesOk (b :: rest)) := rfl
    rw [e] at h
    rcases Bool.and_eq_true _ _ ▸ h with ⟨h1, h2⟩
    rw [Bool.and_eq_true] at hc
    rw [hc.1, hc.2] at h1
    simp at h1
  | case4 a b rest hc ih =>
    have e : spacesOk (a :: b :: rest) =
        ((!isSpace a || (decide (a = 32) && !isSpace b)) && spacesOk (b :: rest)) := rfl
    rw [e, Bool.and_eq_true] at h
    have step : collapse (a :: b :: rest) =
        (if isSpace a then 32 else a) :: collapse (b :: rest) := by
      simp [collapse, hc]
    rw [step, ih h.2]
    by_cases hsa : isSpace a = true
    · have h32 : a = 32 := by
        have h1 := h.1
        rw [hsa] at h1
        simp at h1
        exact h1.1
      rw [if_pos hsa, h32]
    · rw [if_neg (by simp [hsa])]

theorem headOk_normLabel (s : List Nat) : headOk (normLabel s) = true := by
  unfold normLabel cleanLabel
  rw [headOk_lowerStr]
  exact headOk_collapse _ (headOk_dotfold _ (headOk_dropKoik _ (headOk_strip s)))

theorem lastOk_normLabel (s : List Nat) : lastOk (normLabel s) = true := by
  unfold normLabel cleanLabel
  rw [lastOk_lowerStr]
  exact lastOk_collapse _ (lastOk_dotfold _ (lastOk_dropKoik _ (lastOk_strip s)))

theorem spacesOk_normLabel (s : List Nat) : spacesOk (normLabel s) = true := by
  unfold normLabel cleanLabel
  rw [spacesOk_lowerStr]
  exact spacesOk_collapse _

theorem lowerStr_normLabel (s : List Nat) : lowerStr (normLabel s) = normLabel s := by
  unfold normLabel
  rw [lowerStr_idem]

theorem normLabel_fixpoint (y : List Nat)
    (h1 : headOk y = true) (h2 : lastOk y = true) (h3 : spacesOk y = true)
    (h4 : endsWithKoik y = false) (h5 : hasDigitDot y = false)
    (h6 : lowerStr y = y) : normLabel y = y := by
  unfold normLabel cleanLabel
  rw [strip_eq_self y h1 h2, dropKoik_eq_self y h4, dotfold_eq_self y h5,
    collapse_eq_self y h3, h6]

/-- C7 amended: normalization is idempotent on every label whose
normalized form does not still end with the `(kõik)` suffix and
contains no digit immediately followed by a dot (the suffix is dropped
only once per pass and the digit-dot folding is a single left-to-right
pass, so those two residues are re-normalized differently); in
particular `2. seeria` and `2  seeria` both normalize, stably, to
`2 seeria`. -/
theorem c7_idempotence_amended :
    (∀ s : List Nat,
      endsWithKoik (normLabel s) = false →
      hasDigitDot (normLabel s) = false →
      normLabel (normLabel s) = normLabel s) ∧
    normLabel (pyStr "2. seeria") = pyStr "2 seeria" ∧
    normLabel (pyStr "2  seeria") = pyStr "2 seeria" ∧
    normLabel (normLabel (pyStr "2. seeria")) = normLabel (pyStr "2. seeria") := by
  refine ⟨?_, by decide, by decide, by decide⟩
  intro s h4 h5
  exact normLabel_fixpoint (normLabel s) (headOk_normLabel s) (lastOk_normLabel s)
    (spacesOk_normLabel s) h4 h5 (lowerStr_normLabel s)

/-- Witness for C7 at the label `2. seeria`. -/
theorem c7_idempotence_amended_witness :
    (endsWithKoik (normLabel (pyStr "2. seeria")) = false ∧
     hasDigitDot (normLabel (pyStr "2. seeria")) = false) ∧
    normLabel (normLabel (pyStr "2. seeria")) = normLabel (pyStr "2. seeria") :=
  ⟨⟨by decide, by decide⟩,
   c7_idempotence_amended.1 (pyStr "2. seeria") (by decide) (by decide)⟩

/-- Witness for C5 at a two-listing store where one listing resolves
fully and the other lacks a model mapping. -/
theorem c5_resolution_atomicity_witness :
    List.Pairwise (fun a b : Listing => a.mongo_id ≠ b.mongo_id)
      [c5Resolvable, c5Unresolvable] ∧
    (resolveAllUnresolved c5Mappings [c5Resolvable, c5Unresolvable] 0).2.updated =
      ((unresolvedCursor [c5Resolvable, c5Unresolvable] 0).filter
        (bothResolved c5Mappings)).length ∧
    ((unresolvedCursor [c5Resolvable, c5Unresolvable] 0).filter
      (bothResolved c5Mappings)).length = 1 :=
  ⟨by decide,
   (c5_resolution_atomicity c5Mappings [c5Resolvable, c5Unresolvable] 0 (by decide)).2.1,
   by decide⟩

end AutoMarket
